import Mathlib

/-!
Verification of the incremental crawl seeding / URL-space enumeration engine of
`jailscraper/spiders/inmate_spider.py` (class `InmatesSpider`).

The Python code works on `datetime` values (always valid Gregorian dates),
arithmetic with `ONE_DAY = timedelta(days=1)`, `strftime`/`strptime`
formatting, and plain string manipulation.  We embed dates as a
year/month/day record with the Gregorian successor/predecessor functions and
the chronological (lexicographic) order, and embed each method of the spider
as a pure function of its inputs; external collaborators (the csv module, the
config object, the filesystem listing, storage write outcomes) are parameters.
-/

namespace Jailscraper

/-- A calendar date, as carried by a Python `datetime` at midnight
(`year-month-day`).  Python `datetime` values are always valid Gregorian
dates; validity is the explicit predicate `Date.Valid` below. -/
structure Date where
  year : Nat
  month : Nat
  day : Nat
deriving DecidableEq

/-- Gregorian leap-year rule (as implemented by the Python datetime module). -/
def isLeap (y : Nat) : Bool :=
  y % 4 = 0 && (y % 100 != 0 || y % 400 = 0)

/-- Number of days in month `m` of year `y`. -/
def daysInMonth (y m : Nat) : Nat :=
  if m = 2 then (if isLeap y then 29 else 28)
  else if m = 4 ∨ m = 6 ∨ m = 9 ∨ m = 11 then 30
  else 31

/-- The invariant every Python `datetime` satisfies (Python additionally
requires `year ≤ 9999`, which no claim depends on). -/
def Date.Valid (d : Date) : Prop :=
  1 ≤ d.year ∧ 1 ≤ d.month ∧ d.month ≤ 12 ∧ 1 ≤ d.day ∧ d.day ≤ daysInMonth d.year d.month

instance (d : Date) : Decidable d.Valid :=
  inferInstanceAs (Decidable (_ ∧ _))

/-- Chronological order on dates; on valid dates this is exactly the order of
Python `datetime` comparison. -/
def Date.lt (a b : Date) : Prop :=
  a.year < b.year ∨ (a.year = b.year ∧ (a.month < b.month ∨ (a.month = b.month ∧ a.day < b.day)))

instance : LT Date := ⟨Date.lt⟩

instance (a b : Date) : Decidable (a < b) :=
  inferInstanceAs (Decidable (_ ∨ _))

instance : LE Date := ⟨fun a b => a < b ∨ a = b⟩

instance (a b : Date) : Decidable (a ≤ b) :=
  inferInstanceAs (Decidable (_ ∨ _))


/-- Python datetime arithmetic d + ONE_DAY: the Gregorian successor. -/
def nextDay (d : Date) : Date :=
  if d.day < daysInMonth d.year d.month then ⟨d.year, d.month, d.day + 1⟩
  else if d.month < 12 then ⟨d.year, d.month + 1, 1⟩
  else ⟨d.year + 1, 1, 1⟩

/-- Python datetime arithmetic d - ONE_DAY: the Gregorian predecessor
(computes the `self._yesterday` reference from `self._today`). -/
def prevDay (d : Date) : Date :=
  if 1 < d.day then ⟨d.year, d.month, d.day - 1⟩
  else if 1 < d.month then ⟨d.year, d.month - 1, daysInMonth d.year (d.month - 1)⟩
  else ⟨d.year - 1, 12, 31⟩

/-- A strictly monotone measure of a date, used to bound the number of
iterations of the date-scanning loop. -/
def dateScalar (d : Date) : Nat :=
  512 * d.year + 32 * d.month + d.day

-- String helpers (Python `str` operations used by the spider) ----------------

/-- Python two-digit zero padding, format {:02d} as used by strftime
(minimum width two, wider numbers printed in full). -/
def pad2 (n : Nat) : String :=
  if n < 10 then "0" ++ Nat.repr n else Nat.repr n

/-- Python three-digit zero padding, format {:03d} (minimum width
three, wider numbers printed in full). -/
def pad3 (n : Nat) : String :=
  if n < 10 then "00" ++ Nat.repr n
  else if n < 100 then "0" ++ Nat.repr n
  else Nat.repr n

/-- Python str.split for a one-character separator, on the character
list of the string (splitting an empty list yields one empty chunk). -/
def splitCharList (c : Char) : List Char → List (List Char)
  | [] => [[]]
  | x :: xs =>
    match splitCharList c xs with
    | [] => [[]]
    | h :: t => if x = c then [] :: h :: t else (x :: h) :: t

/-- Python str.split for a one-character separator. -/
def pySplit (s : String) (c : Char) : List String :=
  (splitCharList c s.data).map String.mk


/-- Python str.splitlines (newline-only model): like splitting on the
newline character, but without the trailing empty chunk a terminal newline
would produce; the empty string yields an empty list. -/
def splitlines (s : String) : List String :=
  let parts := pySplit s '\n'
  if parts.getLast? = some "" then parts.dropLast else parts

/-- Python datetime.strftime with format %Y-%m-%d (the page-filename and
seed-partition date form). -/
def strftimeDashed (d : Date) : String :=
  Nat.repr d.year ++ "-" ++ pad2 d.month ++ "-" ++ pad2 d.day

/-- Python datetime.strftime with format %Y-%m%d — the format string in
`_generate_urls` (line 80): year, a dash, then month and day with NO
separator between them. -/
def strftimeYmmd (d : Date) : String :=
  Nat.repr d.year ++ "-" ++ pad2 d.month ++ pad2 d.day

/-- All-digit, non-empty numeral → its value (used by `strptime`). -/
def parseDigits (s : String) : Option Nat :=
  if s.data ≠ [] ∧ s.data.all (fun c => c.isDigit) then
    some (s.data.foldl (fun a c => a * 10 + (c.toNat - 48)) 0)
  else none

/-- Python datetime.strptime with format %Y-%m-%d: three dash-separated
numeric fields forming a valid Gregorian date; `none` models the
ValueError raised on any other input. -/
def strptimeDashed (s : String) : Option Date :=
  match pySplit s '-' with
  | [ys, ms, ds] =>
    match parseDigits ys, parseDigits ms, parseDigits ds with
    | some y, some m, some d =>
      if (Date.mk y m d).Valid then some ⟨y, m, d⟩ else none
    | _, _, _ => none
  | _ => none

-- The InmatesSpider embedding ------------------------------------------------

/-- The `while last_date < self._today` loop of `_generate_urls` (lines
79-84), abstracted to the list of dates it scans.  `fuel` bounds the number
of iterations; every use instantiates it with `dateScalar today`, which is
ample for valid dates (the scalar strictly increases at every step). -/
def datesBetween (cur today : Date) : Nat → List Date
  | 0 => []
  | fuel + 1 =>
    if cur < today then cur :: datesBetween (nextDay cur) today fuel else []

/-- Line 82, format {0}{1:03d} applied to next_query and num: the
candidate jail number for day `d` and sequence number `num`. -/
def jailnumber (d : Date) (num : Nat) : String :=
  strftimeYmmd d ++ pad3 num

/-- Lines 73-76: if the seed file held any rows, enumeration starts the day
after the resume date; otherwise it starts on the resume date itself. -/
def enumCursor (seedIds : List String) (resume : Date) : Date :=
  if seedIds.isEmpty then resume else nextDay resume

/-- The dates the generation loop scans, for a given seed. -/
def generatedDates (seedIds : List String) (resume today : Date) : List Date :=
  datesBetween (enumCursor seedIds resume) today (dateScalar today)

/-- The generated candidates of one run, as structured (day, number) pairs:
for each scanned day, the numbers `1 .. maxNum` (Python
`range(1, MAX_DEFAULT_JAIL_NUMBER + 1)`), in generation order. -/
def generatedPairs (seedIds : List String) (resume today : Date) (maxNum : Nat) :
    List (Date × Nat) :=
  (generatedDates seedIds resume today).flatMap
    (fun d => (List.range' 1 maxNum).map (fun n => (d, n)))

/-- The identifier sequence produced by `_generate_urls` before the URL
template is applied: the Booking_Id of each seed row followed by all
generated jail numbers. -/
def generate_ids (seedIds : List String) (resume today : Date) (maxNum : Nat) :
    List String :=
  seedIds ++ (generatedPairs seedIds resume today maxNum).map (fun p => jailnumber p.1 p.2)

/-- The URL list of `_generate_urls` (template applied to every identifier;
`app_config.INMATE_URL_TEMPLATE.format` is the external `template`). -/
def generate_urls (template : String → String) (seedIds : List String)
    (resume today : Date) (maxNum : Nat) : List String :=
  (generate_ids seedIds resume today maxNum).map template

/-- One insertion step of an ascending insertion sort on strings. -/
def insertString (x : String) : List String → List String
  | [] => [x]
  | y :: ys => if y < x then y :: insertString x ys else x :: y :: ys

/-- Python `sorted(...)` on a list of strings: ascending lexicographic
order by code points.  (Insertion sort; extensionally equal to the Python
sort because ascending order on a total order determines the list up to
equal — hence identical — strings.) -/
def sortStrings (l : List String) : List String :=
  l.foldr insertString []

/-- Embedding of `_get_local_seed_file` (lines 114-130).  `listing` is
what os.listdir on data/daily returned (the empty list also covers the
FileNotFoundError branch); `contents f` is the Booking_Id column of the
csv rows of file `f` (the csv module is external).  Returns the date
string (the last sorted filename up to its first dot, or the fallback)
and the seed rows. -/
def get_local_seed_file (listing : List String) (contents : String → List String)
    (fallback : String) : String × List String :=
  let files := sortStrings listing
  match files.getLast? with
  | none => (fallback, [])
  | some last => (((pySplit last '.').headD ""), contents last)

/-- Embedding of `_get_s3_seed_file` (lines 98-112).  `manifestText` is
the body of manifest.csv; `fetchRows f` is the Booking_Id column of the
partition at URL `f`.  The splitlines-then-pop on line 109 raises
IndexError on an empty manifest, modelled as `none`; otherwise the date
string is the last slash-separated segment of the seed URL up to its
first dot. -/
def get_s3_seed_file (manifestText : String) (fetchRows : String → List String) :
    Option (String × List String) :=
  match (splitlines manifestText).getLast? with
  | none => none
  | some seedUrl =>
    some ((pySplit ((pySplit seedUrl '/').getLastD "") '.').headD "", fetchRows seedUrl)

/-- The full local-backend run of `_generate_urls` (lines 63-89) at the
identifier level: resolve the seed, `strptime` the date string (a failure
raises `ValueError`, modelled as `none`), generate, and apply the
`self._testing` truncation `urls[len(urls) - 600:]`. -/
def spider_run (listing : List String) (contents : String → List String)
    (fallback : String) (today : Date) (maxNum : Nat) (testing : Bool) :
    Option (List String) :=
  let seed := get_local_seed_file listing contents fallback
  (strptimeDashed seed.1).map (fun resume =>
    let ids := generate_ids seed.2 resume today maxNum
    if testing then ids.drop (ids.length - 600) else ids)

/-- The resolved resume date of a run (`self._start_date`, line 68). -/
def spider_resume (listing : List String) (contents : String → List String)
    (fallback : String) : Option Date :=
  strptimeDashed (get_local_seed_file listing contents fallback).1

/-- The typed fields extracted from a raw page by `jailscraper.models.
InmatePage` (the extractor itself is external; this is its output record,
the output row schema of spec section 6 minus the classification flag). -/
structure InmatePage where
  age_at_booking : String
  bail_amount : String
  booking_date : String
  booking_id : String
  charges : String
  court_date : String
  court_location : String
  gender : String
  inmate_hash : String
  height : String
  housing_location : String
  race : String
  weight : String
deriving DecidableEq

/-- One output row yielded by `parse` (lines 46-61). -/
structure Row where
  age_at_booking : String
  bail_amount : String
  booking_date : String
  booking_id : String
  charges : String
  court_date : String
  court_location : String
  gender : String
  inmate_hash : String
  height : String
  housing_location : String
  race : String
  weight : String
  incomplete : Bool
deriving DecidableEq

/-- Outcome of one storage write (`_save_local` / `_save_to_s3`): either it
returns normally or it raises (OSError, boto error, ...). -/
inductive WriteOutcome where
  | ok
  | failed
deriving DecidableEq

/-- Embedding of `_is_complete_record` (lines 154-157): strptime the
booking date and compare it with the yesterday reference (today minus one
day); `none` models the ValueError a malformed booking date raises. -/
def is_complete_record (inmate : InmatePage) (today : Date) : Option Bool :=
  (strptimeDashed inmate.booking_date).map (fun bd => decide (bd < prevDay today))

/-- Embedding of `parse` (lines 37-61).  `useLocal` and `useS3` are the
USE_LOCAL_STORAGE / USE_S3_STORAGE configuration flags; `localWrite` and
`s3Write` are the outcomes of the enabled storage writes.  The method body
has no try/except: an exception from `_save_local`, `_save_to_s3`, or the
strptime inside `_is_complete_record` propagates and the row is never
yielded (`none`); otherwise the yielded dict is built from the in-memory
`inmate` fields, with the Incomplete field from `_is_complete_record`. -/
def parse (useLocal useS3 : Bool) (localWrite s3Write : WriteOutcome)
    (inmate : InmatePage) (today : Date) : Option Row :=
  if useLocal ∧ localWrite = .failed then none
  else if useS3 ∧ s3Write = .failed then none
  else
    (is_complete_record inmate today).map (fun flag =>
      { age_at_booking := inmate.age_at_booking
        bail_amount := inmate.bail_amount
        booking_date := inmate.booking_date
        booking_id := inmate.booking_id
        charges := inmate.charges
        court_date := inmate.court_date
        court_location := inmate.court_location
        gender := inmate.gender
        inmate_hash := inmate.inmate_hash
        height := inmate.height
        housing_location := inmate.housing_location
        race := inmate.race
        weight := inmate.weight
        incomplete := flag })

/-- Embedding of `_generate_page_filename` (lines 149-152): the reference
date rendered %Y-%m-%d, a dash, the booking id, and the suffix .html. -/
def generate_page_filename (today : Date) (booking_id : String) : String :=
  strftimeDashed today ++ "-" ++ booking_id ++ ".html"

/-- The S3 object key computed by `_save_to_s3` (lines 140-147): the
target, the segment /raw/, and the filename concatenated, with the first
character dropped when the composed key starts with a slash. -/
def save_to_s3_key (target : String) (filename : String) : String :=
  let key := target ++ "/raw/" ++ filename
  if key.data.head? = some '/' then String.mk key.data.tail else key

-- Order and calendar lemmas -------------------------------------------------

theorem Date.lt_def (a b : Date) : (a < b) =
    (a.year < b.year ∨ (a.year = b.year ∧ (a.month < b.month ∨ (a.month = b.month ∧ a.day < b.day)))) :=
  rfl

theorem Date.le_def (a b : Date) : (a ≤ b) = (a < b ∨ a = b) := rfl

-- Basic order facts ----------------------------------------------------------

theorem Date.lt_irrefl (a : Date) : ¬ a < a := by
  rw [Date.lt_def]; omega

theorem Date.lt_trans {a b c : Date} (h1 : a < b) (h2 : b < c) : a < c := by
  rw [Date.lt_def] at *; omega

theorem Date.lt_asymm {a b : Date} (h : a < b) : ¬ b < a := by
  rw [Date.lt_def] at *; omega

theorem Date.ne_of_lt {a b : Date} (h : a < b) : a ≠ b := by
  rintro rfl; exact Date.lt_irrefl a h

theorem Date.lt_of_lt_of_le {a b c : Date} (h1 : a < b) (h2 : b ≤ c) : a < c := by
  rcases h2 with h2 | rfl
  · exact Date.lt_trans h1 h2
  · exact h1

theorem Date.lt_of_le_of_lt {a b c : Date} (h1 : a ≤ b) (h2 : b < c) : a < c := by
  rcases h1 with h1 | rfl
  · exact Date.lt_trans h1 h2
  · exact h2

theorem Date.le_trans {a b c : Date} (h1 : a ≤ b) (h2 : b ≤ c) : a ≤ c := by
  rcases h1 with h1 | rfl
  · exact Or.inl (Date.lt_of_lt_of_le h1 h2)
  · exact h2

theorem Date.not_lt_of_le {a b : Date} (h : a ≤ b) : ¬ b < a := by
  rcases h with h | rfl
  · exact Date.lt_asymm h
  · exact Date.lt_irrefl a

theorem daysInMonth_le (y m : Nat) : daysInMonth y m ≤ 31 := by
  unfold daysInMonth; split
  · split <;> omega
  · split <;> omega

theorem daysInMonth_pos (y m : Nat) : 1 ≤ daysInMonth y m := by
  unfold daysInMonth; split
  · split <;> omega
  · split <;> omega

theorem lt_nextDay (d : Date) : d < nextDay d := by
  unfold nextDay
  split
  · exact Or.inr ⟨rfl, Or.inr ⟨rfl, Nat.lt_succ_self _⟩⟩
  · split
    · exact Or.inr ⟨rfl, Or.inl (Nat.lt_succ_self _)⟩
    · exact Or.inl (Nat.lt_succ_self _)

theorem le_nextDay (d : Date) : d ≤ nextDay d := Or.inl (lt_nextDay d)

theorem nextDay_valid {d : Date} (h : d.Valid) : (nextDay d).Valid := by
  obtain ⟨h1, h2, h3, h4, h5⟩ := h
  have hp1 := daysInMonth_pos d.year (d.month + 1)
  have hp2 : daysInMonth (d.year + 1) 1 = 31 := by
    unfold daysInMonth; norm_num
  unfold nextDay
  split
  · unfold Date.Valid; dsimp only; omega
  · split
    · unfold Date.Valid; dsimp only; omega
    · unfold Date.Valid; dsimp only; omega

theorem dateScalar_lt_nextDay {d : Date} (h : d.Valid) : dateScalar d < dateScalar (nextDay d) := by
  obtain ⟨h1, h2, h3, h4, h5⟩ := h
  have := daysInMonth_le d.year d.month
  unfold nextDay
  split
  · unfold dateScalar; dsimp only; omega
  · split
    · unfold dateScalar; dsimp only; omega
    · unfold dateScalar; dsimp only; omega

theorem dateScalar_lt_of_valid_lt {a b : Date} (ha : a.Valid) (hb : b.Valid) (h : a < b) :
    dateScalar a < dateScalar b := by
  obtain ⟨_, _, ha3, _, ha5⟩ := ha
  obtain ⟨_, hb2, hb3, hb4, hb5⟩ := hb
  have hma := daysInMonth_le a.year a.month
  have hmb := daysInMonth_le b.year b.month
  rw [Date.lt_def] at h
  unfold dateScalar
  omega

/-- For valid dates, `nextDay` is the immediate successor: anything strictly
above `a` is at or above `nextDay a`. -/
theorem nextDay_le_of_lt {a b : Date} (ha : a.Valid) (hb : b.Valid) (h : a < b) :
    nextDay a ≤ b := by
  obtain ⟨ha1, ha2, ha3, ha4, ha5⟩ := ha
  obtain ⟨hb1, hb2, hb3, hb4, hb5⟩ := hb
  obtain ⟨by_, bm, bd⟩ := b
  rw [Date.lt_def] at h
  simp only at h hb2 hb3 hb4 hb5
  unfold nextDay
  split
  · -- next = ⟨y, m, d+1⟩
    rcases h with h | ⟨hy, h⟩
    · exact Or.inl (Or.inl h)
    · rcases h with h | ⟨hm, hd⟩
      · exact Or.inl (Or.inr ⟨hy, Or.inl h⟩)
      · rcases Nat.lt_or_ge (a.day + 1) bd with h' | h'
        · exact Or.inl (Or.inr ⟨hy, Or.inr ⟨hm, h'⟩⟩)
        · have : bd = a.day + 1 := by omega
          exact Or.inr (by simp [hy, hm, this])
  · rename_i hd1
    split
    · -- next = ⟨y, m+1, 1⟩
      rename_i hm1
      rcases h with h | ⟨hy, h⟩
      · exact Or.inl (Or.inl h)
      · rcases h with h | ⟨hm, hd⟩
        · rcases Nat.lt_or_ge (a.month + 1) bm with h' | h'
          · exact Or.inl (Or.inr ⟨hy, Or.inl h'⟩)
          · have hbm : bm = a.month + 1 := by omega
            rcases Nat.lt_or_ge 1 bd with h'' | h''
            · exact Or.inl (Or.inr ⟨hy, Or.inr ⟨hbm.symm, h''⟩⟩)
            · have : bd = 1 := by omega
              exact Or.inr (by simp [hy, hbm, this])
        · -- same year and month but a.day not < daysInMonth: contradiction with hb5
          subst hy hm
          omega
    · -- next = ⟨y+1, 1, 1⟩; here a.month = 12 (valid) and a.day = daysInMonth
      rename_i hm1
      rcases h with h | ⟨hy, h⟩
      · rcases Nat.lt_or_ge (a.year + 1) by_ with h' | h'
        · exact Or.inl (Or.inl h')
        · have hby : by_ = a.year + 1 := by omega
          rcases Nat.lt_or_ge 1 bm with h'' | h''
          · exact Or.inl (Or.inr ⟨hby.symm, Or.inl h''⟩)
          · have hbm : bm = 1 := by omega
            rcases Nat.lt_or_ge 1 bd with h3 | h3
            · exact Or.inl (Or.inr ⟨hby.symm, Or.inr ⟨hbm.symm, h3⟩⟩)
            · have : bd = 1 := by omega
              exact Or.inr (by simp [hby, hbm, this])
      · rcases h with h | ⟨hm, hd⟩
        · omega
        · subst hy hm
          omega

theorem mk_data (s : String) : String.mk s.data = s := by
  cases s
  rfl

-- Properties of the date-scanning loop ---------------------------------------

theorem datesBetween_mem_lt {t : Date} :
    ∀ (fuel : Nat) (cur d : Date), d ∈ datesBetween cur t fuel → d < t := by
  intro fuel
  induction fuel with
  | zero => intro cur d h; simp [datesBetween] at h
  | succ n ih =>
    intro cur d h
    unfold datesBetween at h
    split at h
    · rcases List.mem_cons.mp h with rfl | h
      · assumption
      · exact ih _ _ h
    · simp at h

theorem datesBetween_le_of_mem {t : Date} :
    ∀ (fuel : Nat) (cur d : Date), d ∈ datesBetween cur t fuel → cur ≤ d := by
  intro fuel
  induction fuel with
  | zero => intro cur d h; simp [datesBetween] at h
  | succ n ih =>
    intro cur d h
    unfold datesBetween at h
    split at h
    · rcases List.mem_cons.mp h with rfl | h
      · exact Or.inr rfl
      · exact Date.le_trans (le_nextDay cur) (ih _ _ h)
    · simp at h

theorem datesBetween_eq_nil {cur t : Date} (h : ¬ cur < t) (fuel : Nat) :
    datesBetween cur t fuel = [] := by
  cases fuel with
  | zero => rfl
  | succ n => unfold datesBetween; exact if_neg h

theorem datesBetween_head? {cur t : Date} {fuel : Nat} (hf : 0 < fuel) (h : cur < t) :
    (datesBetween cur t fuel).head? = some cur := by
  cases fuel with
  | zero => omega
  | succ n => unfold datesBetween; rw [if_pos h]; rfl

theorem datesBetween_pairwise {t : Date} :
    ∀ (fuel : Nat) (cur : Date), (datesBetween cur t fuel).Pairwise (· < ·) := by
  intro fuel
  induction fuel with
  | zero => intro cur; simp [datesBetween]
  | succ n ih =>
    intro cur
    unfold datesBetween
    split
    · refine List.pairwise_cons.mpr ⟨?_, ih _⟩
      intro b hb
      exact Date.lt_of_lt_of_le (lt_nextDay cur) (datesBetween_le_of_mem _ _ _ hb)
    · simp

theorem datesBetween_nodup {t : Date} (fuel : Nat) (cur : Date) :
    (datesBetween cur t fuel).Nodup :=
  (datesBetween_pairwise fuel cur).imp (fun h => Date.ne_of_lt h)

/-- Completeness of the loop: every valid day in `[cur, t)` is scanned,
given enough fuel. -/
theorem datesBetween_mem {t d : Date} (hd : d.Valid) (hdt : d < t) :
    ∀ (fuel : Nat) (cur : Date), cur.Valid → cur ≤ d →
      dateScalar d < dateScalar cur + fuel → d ∈ datesBetween cur t fuel := by
  intro fuel
  induction fuel with
  | zero =>
    intro cur hc hcd hfuel
    rcases hcd with h | rfl
    · have := dateScalar_lt_of_valid_lt hc hd h
      omega
    · omega
  | succ n ih =>
    intro cur hc hcd hfuel
    have hct : cur < t := Date.lt_of_le_of_lt hcd hdt
    unfold datesBetween
    rw [if_pos hct]
    rcases hcd with h | rfl
    · refine List.mem_cons_of_mem _ (ih (nextDay cur) (nextDay_valid hc) ?_ ?_)
      · exact nextDay_le_of_lt hc hd h
      · have := dateScalar_lt_nextDay hc
        omega
    · exact List.mem_cons_self _ _

theorem datesBetween_count_eq_one {cur t d : Date} {fuel : Nat}
    (h : d ∈ datesBetween cur t fuel) : (datesBetween cur t fuel).count d = 1 :=
  List.count_eq_one_of_mem (datesBetween_nodup fuel cur) h

-- Filtering the generated pairs down to one day ------------------------------

theorem block_filter_eq (L : List Nat) (d e : Date) :
    ((L.map (fun n => (e, n))).filter (fun p => decide (p.1 = d))) =
      (if e = d then L.map (fun n => (d, n)) else []) := by
  induction L with
  | nil => simp
  | cons x xs ih =>
    simp only [List.map_cons, List.filter_cons]
    by_cases h : e = d
    · subst h
      simp [ih]
    · simp [h, ih]

theorem pairs_filter_eq_nil {m : Nat} {es : List Date} {d : Date} (h : d ∉ es) :
    ((es.flatMap (fun e => (List.range' 1 m).map (fun n => (e, n)))).filter
      (fun p => decide (p.1 = d))) = [] := by
  induction es with
  | nil => simp
  | cons e es ih =>
    have he : e ≠ d := fun hh => h (hh ▸ List.mem_cons_self e es)
    have hd : d ∉ es := fun hh => h (List.mem_cons_of_mem _ hh)
    rw [List.flatMap_cons, List.filter_append, block_filter_eq, if_neg he, ih hd]
    rfl

theorem pairs_filter_eq {m : Nat} {dates : List Date} {d : Date} (h : dates.count d = 1) :
    ((dates.flatMap (fun e => (List.range' 1 m).map (fun n => (e, n)))).filter
      (fun p => decide (p.1 = d))) = (List.range' 1 m).map (fun n => (d, n)) := by
  induction dates with
  | nil => simp at h
  | cons e es ih =>
    rw [List.flatMap_cons, List.filter_append, block_filter_eq]
    by_cases he : e = d
    · subst he
      have hz : es.count e = 0 := by
        rw [List.count_cons_self] at h
        omega
      rw [if_pos rfl, pairs_filter_eq_nil (List.count_eq_zero.mp hz), List.append_nil]
    · rw [if_neg he, List.nil_append]
      refine ih ?_
      rwa [List.count_cons_of_ne (fun hh => he hh.symm)] at h

-- Cursor helpers --------------------------------------------------------------

theorem enumCursor_nil (resume : Date) : enumCursor [] resume = resume := rfl

theorem enumCursor_of_ne_nil {seedIds : List String} (h : seedIds ≠ []) (resume : Date) :
    enumCursor seedIds resume = nextDay resume := by
  cases seedIds with
  | nil => exact absurd rfl h
  | cons a l => rfl

theorem enumCursor_le {seedIds : List String} {resume d : Date}
    (hres : resume.Valid) (hd : d.Valid) (h : resume < d) :
    enumCursor seedIds resume ≤ d := by
  cases seedIds with
  | nil => exact Or.inl h
  | cons a l => exact nextDay_le_of_lt hres hd h

theorem enumCursor_valid {seedIds : List String} {resume : Date} (h : resume.Valid) :
    (enumCursor seedIds resume).Valid := by
  cases seedIds with
  | nil => exact h
  | cons a l => exact nextDay_valid h

theorem dateScalar_pos {d : Date} (h : d.Valid) : 0 < dateScalar d := by
  obtain ⟨h1, h2, h3, h4, h5⟩ := h
  unfold dateScalar
  omega

-- Claim theorems --------------------------------------------------------------

/-- C7: enumeration never generates a candidate dated today or later, and
when the resume cursor is at or past today the generated range is empty:
the identifier list of the run is exactly the carried-over seed identifiers
(zero candidates when the seed is empty). -/
theorem no_candidate_dated_today_or_later (seedIds : List String) (resume today : Date)
    (maxNum : Nat) :
    (∀ p ∈ generatedPairs seedIds resume today maxNum, p.1 < today) ∧
    (today ≤ resume → generate_ids seedIds resume today maxNum = seedIds) := by
  constructor
  · intro p hp
    unfold generatedPairs at hp
    rcases List.mem_flatMap.mp hp with ⟨d, hd, hpd⟩
    have hlt := datesBetween_mem_lt _ _ _ hd
    rcases List.mem_map.mp hpd with ⟨n, _, rfl⟩
    exact hlt
  · intro h
    have hguard : ¬ enumCursor seedIds resume < today := by
      cases seedIds with
      | nil => exact Date.not_lt_of_le h
      | cons a l =>
        have : today < nextDay resume := Date.lt_of_le_of_lt h (lt_nextDay resume)
        exact Date.lt_asymm this
    unfold generate_ids generatedPairs generatedDates
    rw [datesBetween_eq_nil hguard]
    simp

/-- C7 witness: fallback date 2023-01-01 with today 2023-01-01 and no seed
generates zero candidates. -/
theorem no_candidate_dated_today_or_later_witness :
    (⟨2023, 1, 1⟩ : Date) ≤ ⟨2023, 1, 1⟩ ∧
    generate_ids [] ⟨2023, 1, 1⟩ ⟨2023, 1, 1⟩ 500 = [] :=
  ⟨by decide,
    (no_candidate_dated_today_or_later [] ⟨2023, 1, 1⟩ ⟨2023, 1, 1⟩ 500).2 (by decide)⟩

/-- C6: the enumeration cursor starts at `resume + 1 day` exactly when the
seed carried identifiers (the resume day itself is never rescanned, and the
first scanned day — when any — is the day after the resume date), and at
the resume date itself when the seed is empty. -/
theorem cursor_start_rule (seedIds : List String) (resume today : Date)
    (htoday : today.Valid) :
    (seedIds ≠ [] →
      resume ∉ generatedDates seedIds resume today ∧
      (nextDay resume < today →
        (generatedDates seedIds resume today).head? = some (nextDay resume))) ∧
    (seedIds = [] → resume < today →
      (generatedDates seedIds resume today).head? = some resume) := by
  have hf : 0 < dateScalar today := dateScalar_pos htoday
  constructor
  · intro hne
    unfold generatedDates
    rw [enumCursor_of_ne_nil hne]
    constructor
    · intro hmem
      have h1 := datesBetween_le_of_mem _ _ _ hmem
      exact Date.lt_irrefl resume (Date.lt_of_lt_of_le (lt_nextDay resume) h1)
    · intro hlt
      exact datesBetween_head? hf hlt
  · intro hnil hlt
    subst hnil
    unfold generatedDates
    rw [enumCursor_nil]
    exact datesBetween_head? hf hlt

/-- C6 witness: seeded resume date 2023-06-01 with today 2023-06-03: the
resume day is not rescanned and scanning starts on 2023-06-02. -/
theorem cursor_start_rule_witness :
    (⟨2023, 6, 3⟩ : Date).Valid ∧
    ((⟨2023, 6, 1⟩ : Date) ∉ generatedDates ["A1"] ⟨2023, 6, 1⟩ ⟨2023, 6, 3⟩ ∧
      (generatedDates ["A1"] ⟨2023, 6, 1⟩ ⟨2023, 6, 3⟩).head? = some (nextDay ⟨2023, 6, 1⟩)) :=
  ⟨by decide, by
    have h := (cursor_start_rule ["A1"] ⟨2023, 6, 1⟩ ⟨2023, 6, 3⟩ (by decide)).1 (by decide)
    exact ⟨h.1, h.2 (by decide)⟩⟩

/-- C1 counterexample: manifest with a single partition `2023-06-01.csv`
holding zero rows.  Resolution parses the partition date 2023-06-01, but
since the row list is empty the cursor is not advanced, and the run
generates the candidate `2023-0601001` — whose date component is 2023-06-01,
on (not after) the resume date. -/
theorem resolve_resume_zero_rows_counterexample :
    spider_resume ["2023-06-01.csv"] (fun _ => []) "1970-01-01" = some ⟨2023, 6, 1⟩ ∧
    spider_run ["2023-06-01.csv"] (fun _ => []) "1970-01-01" ⟨2023, 6, 3⟩ 1 false =
      some [jailnumber ⟨2023, 6, 1⟩ 1, jailnumber ⟨2023, 6, 2⟩ 1] ∧
    ¬ (⟨2023, 6, 1⟩ : Date) < (⟨2023, 6, 1⟩ : Date) :=
  ⟨by decide, by decide, by decide⟩

/-- C1 amended: for every non-empty manifest whose selected (last listed)
partition has a record list with at least one row, `spider_resume` returns
the date parsed from that last partition marker and every generated
candidate is dated strictly after that resume date.  (With zero rows the
cursor is not advanced and candidates dated on the resume date itself are
generated, as the counterexample shows.) -/
theorem resolve_and_resume_strict (listing : List String)
    (contents : String → List String) (fallback lastFile : String)
    (resume today : Date) (maxNum : Nat)
    (hlast : (sortStrings listing).getLast? = some lastFile)
    (hrows : contents lastFile ≠ [])
    (hparse : strptimeDashed ((pySplit lastFile '.').headD "") = some resume) :
    spider_resume listing contents fallback = some resume ∧
    ∀ p ∈ generatedPairs (contents lastFile) resume today maxNum, resume < p.1 := by
  have hseed : get_local_seed_file listing contents fallback =
      ((pySplit lastFile '.').headD "", contents lastFile) := by
    unfold get_local_seed_file
    simp only [hlast]
  constructor
  · unfold spider_resume
    rw [hseed]
    exact hparse
  · intro p hp
    unfold generatedPairs generatedDates at hp
    rw [enumCursor_of_ne_nil hrows] at hp
    rcases List.mem_flatMap.mp hp with ⟨d, hd, hpd⟩
    have h1 := datesBetween_le_of_mem _ _ _ hd
    rcases List.mem_map.mp hpd with ⟨n, _, rfl⟩
    exact Date.lt_of_lt_of_le (lt_nextDay resume) h1

/-- C1 witness: a one-partition manifest with one seed row; resolution
yields 2023-06-01 and all candidates are dated after it. -/
theorem resolve_and_resume_strict_witness :
    ((sortStrings ["2023-06-01.csv"]).getLast? = some "2023-06-01.csv" ∧
      (fun _ => ["X1"] : String → List String) "2023-06-01.csv" ≠ [] ∧
      strptimeDashed ((pySplit "2023-06-01.csv" '.').headD "") = some ⟨2023, 6, 1⟩) ∧
    (spider_resume ["2023-06-01.csv"] (fun _ => ["X1"]) "1970-01-01" = some ⟨2023, 6, 1⟩ ∧
      ∀ p ∈ generatedPairs ((fun _ => ["X1"] : String → List String) "2023-06-01.csv")
        ⟨2023, 6, 1⟩ ⟨2023, 6, 3⟩ 2, (⟨2023, 6, 1⟩ : Date) < p.1) :=
  ⟨⟨by decide, by decide, by decide⟩,
    resolve_and_resume_strict ["2023-06-01.csv"] (fun _ => ["X1"]) "1970-01-01"
      "2023-06-01.csv" ⟨2023, 6, 1⟩ ⟨2023, 6, 3⟩ 2 (by decide) (by decide) (by decide)⟩

/-- C2 counterexample: with resume 2023-06-01 seeded by `A1`, today
2023-06-03 and a 50-per-day cap, the claimed candidate `20230602001`
(date rendered as `YYYYMMDD`) is never generated; the actual candidates
use the %Y-%m%d rendering `2023-0602` (a dash after the year). -/
theorem candidate_format_counterexample :
    "20230602001" ∉ generate_ids ["A1"] ⟨2023, 6, 1⟩ ⟨2023, 6, 3⟩ 50 ∧
    generate_ids ["A1"] ⟨2023, 6, 1⟩ ⟨2023, 6, 3⟩ 50 =
      "A1" :: (List.range' 1 50).map (fun n => "2023-0602" ++ pad3 n) :=
  ⟨by decide, by decide⟩

/-- C2 amended: for every day `d` strictly between the resume date and
today (today excluded), enumeration emits exactly `maxNum` candidates for
`d`, numbered `1 .. maxNum`, each formatted as `d` rendered by
strftime %Y-%m%d — i.e. `YYYY-MMDD`, with a dash after the year —
concatenated with the 3-digit zero-padded sequence number (so the example
run emits `2023-0602001` .. `2023-0602050`, not `20230602001` ..). -/
theorem per_day_block (seedIds : List String) (resume today d : Date) (maxNum : Nat)
    (hres : resume.Valid) (hd : d.Valid) (htoday : today.Valid)
    (h1 : resume < d) (h2 : d < today) :
    ((generatedPairs seedIds resume today maxNum).filter (fun p => decide (p.1 = d)) =
      (List.range' 1 maxNum).map (fun n => (d, n))) ∧
    (∀ n ∈ List.range' 1 maxNum,
      jailnumber d n ∈ generate_ids seedIds resume today maxNum) := by
  have hcv : (enumCursor seedIds resume).Valid := enumCursor_valid hres
  have hcle : enumCursor seedIds resume ≤ d := enumCursor_le hres hd h1
  have hmem : d ∈ generatedDates seedIds resume today := by
    unfold generatedDates
    refine datesBetween_mem hd h2 _ _ hcv hcle ?_
    have := dateScalar_lt_of_valid_lt hd htoday h2
    omega
  have hcount : (generatedDates seedIds resume today).count d = 1 := by
    unfold generatedDates at hmem ⊢
    exact datesBetween_count_eq_one hmem
  have hfilter :
      (generatedPairs seedIds resume today maxNum).filter (fun p => decide (p.1 = d)) =
        (List.range' 1 maxNum).map (fun n => (d, n)) := by
    unfold generatedPairs
    exact pairs_filter_eq hcount
  refine ⟨hfilter, ?_⟩
  intro n hn
  have hpair : (d, n) ∈ generatedPairs seedIds resume today maxNum := by
    refine List.mem_of_mem_filter (p := fun p => decide (p.1 = d)) ?_
    rw [hfilter]
    exact List.mem_map.mpr ⟨n, hn, rfl⟩
  unfold generate_ids
  refine List.mem_append_right _ ?_
  exact List.mem_map.mpr ⟨(d, n), hpair, rfl⟩

/-- C2 witness: the spec scenario (resume 2023-06-01 seeded, today
2023-06-03, cap 50): day 2023-06-02 gets exactly candidates 1..50, and each
`jailnumber` string is generated. -/
theorem per_day_block_witness :
    ((⟨2023, 6, 1⟩ : Date).Valid ∧ (⟨2023, 6, 2⟩ : Date).Valid ∧
      (⟨2023, 6, 3⟩ : Date).Valid ∧
      (⟨2023, 6, 1⟩ : Date) < ⟨2023, 6, 2⟩ ∧ (⟨2023, 6, 2⟩ : Date) < ⟨2023, 6, 3⟩) ∧
    (((generatedPairs ["A1"] ⟨2023, 6, 1⟩ ⟨2023, 6, 3⟩ 50).filter
        (fun p => decide (p.1 = ⟨2023, 6, 2⟩)) =
      (List.range' 1 50).map (fun n => (⟨2023, 6, 2⟩, n))) ∧
    (∀ n ∈ List.range' 1 50,
      jailnumber ⟨2023, 6, 2⟩ n ∈ generate_ids ["A1"] ⟨2023, 6, 1⟩ ⟨2023, 6, 3⟩ 50)) :=
  ⟨⟨by decide, by decide, by decide, by decide, by decide⟩,
    per_day_block ["A1"] ⟨2023, 6, 1⟩ ⟨2023, 6, 3⟩ ⟨2023, 6, 2⟩ 50
      (by decide) (by decide) (by decide) (by decide) (by decide)⟩

/-- C3 counterexample: local storage enabled and its write raising: `parse`
has no try/except, so the exception propagates before the `yield` and NO
output row is emitted for the candidate. -/
theorem storage_failure_counterexample :
    parse true false WriteOutcome.failed WriteOutcome.ok
      ⟨"33", "10000", "2023-06-01", "X1", "BURGLARY", "2023-06-15", "26TH",
        "M", "h1", "510", "DIV2", "B", "180"⟩ ⟨2023, 6, 3⟩ = none :=
  by decide

/-- C3 amended: a storage write failure for a candidate propagates out of
`parse` and the output row for that candidate is NOT emitted; the row
(built from the in-memory extracted fields) is emitted exactly when every
enabled storage write returns normally (and the booking date parses). -/
theorem row_emitted_iff_writes_ok (useLocal useS3 : Bool) (lw sw : WriteOutcome)
    (inmate : InmatePage) (today : Date) (flag : Bool)
    (hparse : is_complete_record inmate today = some flag) :
    ((useLocal → lw = WriteOutcome.ok) → (useS3 → sw = WriteOutcome.ok) →
      parse useLocal useS3 lw sw inmate today = some
        { age_at_booking := inmate.age_at_booking
          bail_amount := inmate.bail_amount
          booking_date := inmate.booking_date
          booking_id := inmate.booking_id
          charges := inmate.charges
          court_date := inmate.court_date
          court_location := inmate.court_location
          gender := inmate.gender
          inmate_hash := inmate.inmate_hash
          height := inmate.height
          housing_location := inmate.housing_location
          race := inmate.race
          weight := inmate.weight
          incomplete := flag }) ∧
    (useLocal = true → lw = WriteOutcome.failed →
      parse useLocal useS3 lw sw inmate today = none) ∧
    (useS3 = true → sw = WriteOutcome.failed →
      parse useLocal useS3 lw sw inmate today = none) := by
  refine ⟨?_, ?_, ?_⟩
  · intro hl hs
    unfold parse
    rw [if_neg, if_neg]
    · rw [hparse]
      rfl
    · rintro ⟨h3, h4⟩
      rw [hs h3] at h4
      exact WriteOutcome.noConfusion h4
    · rintro ⟨h3, h4⟩
      rw [hl h3] at h4
      exact WriteOutcome.noConfusion h4
  · intro h1 h2
    unfold parse
    rw [if_pos ⟨by simp [h1], h2⟩]
  · intro h1 h2
    unfold parse
    by_cases hcase : useLocal = true ∧ lw = WriteOutcome.failed
    · rw [if_pos hcase]
    · rw [if_neg hcase, if_pos ⟨by simp [h1], h2⟩]

/-- C3 witness: with both backends enabled, the row is emitted from the
in-memory fields when both writes succeed, and suppressed when the local
write succeeds but the S3 write fails. -/
theorem row_emitted_iff_writes_ok_witness :
    (is_complete_record
      ⟨"33", "10000", "2023-06-01", "X1", "BURGLARY", "2023-06-15", "26TH",
        "M", "h1", "510", "DIV2", "B", "180"⟩ ⟨2023, 6, 3⟩ = some true) ∧
    parse true true WriteOutcome.ok WriteOutcome.ok
      ⟨"33", "10000", "2023-06-01", "X1", "BURGLARY", "2023-06-15", "26TH",
        "M", "h1", "510", "DIV2", "B", "180"⟩ ⟨2023, 6, 3⟩ = some
      ⟨"33", "10000", "2023-06-01", "X1", "BURGLARY", "2023-06-15", "26TH",
        "M", "h1", "510", "DIV2", "B", "180", true⟩ ∧
    parse true true WriteOutcome.ok WriteOutcome.failed
      ⟨"33", "10000", "2023-06-01", "X1", "BURGLARY", "2023-06-15", "26TH",
        "M", "h1", "510", "DIV2", "B", "180"⟩ ⟨2023, 6, 3⟩ = none :=
  ⟨by decide,
    (row_emitted_iff_writes_ok true true WriteOutcome.ok WriteOutcome.ok
      ⟨"33", "10000", "2023-06-01", "X1", "BURGLARY", "2023-06-15", "26TH",
        "M", "h1", "510", "DIV2", "B", "180"⟩ ⟨2023, 6, 3⟩ true (by decide)).1
      (fun _ => rfl) (fun _ => rfl),
    (row_emitted_iff_writes_ok true true WriteOutcome.ok WriteOutcome.failed
      ⟨"33", "10000", "2023-06-01", "X1", "BURGLARY", "2023-06-15", "26TH",
        "M", "h1", "510", "DIV2", "B", "180"⟩ ⟨2023, 6, 3⟩ true (by decide)).2.2
      rfl rfl⟩

/-- C4 counterexample: with the S3 manifest backend, an EMPTY manifest does
not resolve to the fallback date: `resp.text.splitlines().pop()` raises
`IndexError` (modelled as `none`), so seed resolution fails instead of
returning the fallback with an empty identifier set. -/
theorem s3_empty_manifest_counterexample :
    get_s3_seed_file "" (fun _ => []) = none ∧
    get_s3_seed_file "" (fun _ => []) ≠ some ("2017-01-01", []) :=
  ⟨by decide, by decide⟩

/-- C4 amended: only the LOCAL backend treats an empty/absent manifest as a
normal first run: it returns the configured fallback date with an empty
identifier set, and enumeration then begins from the fallback date
inclusive (its first candidate is number 1 of the fallback day).  The S3
backend instead raises on an empty manifest (see the counterexample). -/
theorem local_fallback_start (contents : String → List String) (fallback : String)
    (today fb : Date) (maxNum : Nat)
    (hparse : strptimeDashed fallback = some fb)
    (htoday : today.Valid) (hlt : fb < today) (hmax : 1 ≤ maxNum) :
    get_local_seed_file [] contents fallback = (fallback, []) ∧
    spider_resume [] contents fallback = some fb ∧
    (generate_ids [] fb today maxNum).head? = some (jailnumber fb 1) := by
  have hseed : get_local_seed_file [] contents fallback = (fallback, []) := rfl
  refine ⟨hseed, ?_, ?_⟩
  · unfold spider_resume
    rw [hseed]
    exact hparse
  · have hf : 0 < dateScalar today := dateScalar_pos htoday
    obtain ⟨k, hk⟩ : ∃ k, dateScalar today = k + 1 := ⟨dateScalar today - 1, by omega⟩
    obtain ⟨m, hm⟩ : ∃ m, maxNum = m + 1 := ⟨maxNum - 1, by omega⟩
    unfold generate_ids generatedPairs generatedDates
    rw [enumCursor_nil, hk, hm]
    unfold datesBetween
    rw [if_pos hlt, List.range'_succ 1 m 1]
    rfl

/-- C4 witness: no manifest, fallback 2023-01-01, today 2023-01-02, cap 3:
resolution returns the fallback with no identifiers and the first candidate
is `2023-0101001`. -/
theorem local_fallback_start_witness :
    (strptimeDashed "2023-01-01" = some ⟨2023, 1, 1⟩ ∧ (⟨2023, 1, 2⟩ : Date).Valid ∧
      (⟨2023, 1, 1⟩ : Date) < ⟨2023, 1, 2⟩ ∧ 1 ≤ 3) ∧
    (get_local_seed_file [] (fun _ => []) "2023-01-01" = ("2023-01-01", []) ∧
      spider_resume [] (fun _ => []) "2023-01-01" = some ⟨2023, 1, 1⟩ ∧
      (generate_ids [] ⟨2023, 1, 1⟩ ⟨2023, 1, 2⟩ 3).head? =
        some (jailnumber ⟨2023, 1, 1⟩ 1)) :=
  ⟨⟨by decide, by decide, by decide, by decide⟩,
    local_fallback_start (fun _ => []) "2023-01-01" ⟨2023, 1, 2⟩ ⟨2023, 1, 1⟩ 3
      (by decide) (by decide) (by decide) (by decide)⟩

/-- C5: the `Incomplete` flag attached to the output row is true iff the
booking date of the record is strictly before today minus one day; on the
boundary (booking date equal to yesterday) it is false. -/
theorem incomplete_flag_rule (useLocal useS3 : Bool) (lw sw : WriteOutcome)
    (inmate : InmatePage) (today bd : Date) (row : Row)
    (hbd : strptimeDashed inmate.booking_date = some bd)
    (hrow : parse useLocal useS3 lw sw inmate today = some row) :
    (row.incomplete = true ↔ bd < prevDay today) ∧
    (bd = prevDay today → row.incomplete = false) := by
  have hcls : is_complete_record inmate today = some (decide (bd < prevDay today)) := by
    unfold is_complete_record
    rw [hbd]
    rfl
  unfold parse at hrow
  split at hrow
  · exact Option.noConfusion hrow
  · split at hrow
    · exact Option.noConfusion hrow
    · rw [hcls] at hrow
      have hflag : row.incomplete = decide (bd < prevDay today) := by
        have := Option.some.inj hrow
        rw [← this]
      constructor
      · rw [hflag]
        exact decide_eq_true_iff
      · intro heq
        rw [hflag, decide_eq_false_iff_not]
        rw [heq]
        exact Date.lt_irrefl (prevDay today)

/-- C5 witness: booking date 2023-06-01 with today 2023-06-03 is flagged
incomplete (2023-06-01 is strictly before yesterday 2023-06-02), and the
boundary booking date 2023-06-02 is not flagged. -/
theorem incomplete_flag_rule_witness :
    (strptimeDashed "2023-06-01" = some ⟨2023, 6, 1⟩ ∧
      parse false false WriteOutcome.ok WriteOutcome.ok
        ⟨"33", "10000", "2023-06-01", "X1", "BURGLARY", "2023-06-15", "26TH",
          "M", "h1", "510", "DIV2", "B", "180"⟩ ⟨2023, 6, 3⟩ = some
        ⟨"33", "10000", "2023-06-01", "X1", "BURGLARY", "2023-06-15", "26TH",
          "M", "h1", "510", "DIV2", "B", "180", true⟩) ∧
    ((true = true ↔ (⟨2023, 6, 1⟩ : Date) < prevDay ⟨2023, 6, 3⟩) ∧
      ((⟨2023, 6, 1⟩ : Date) = prevDay ⟨2023, 6, 3⟩ → true = false)) := by
  refine ⟨⟨by decide, by decide⟩, ?_⟩
  exact incomplete_flag_rule false false WriteOutcome.ok WriteOutcome.ok
    ⟨"33", "10000", "2023-06-01", "X1", "BURGLARY", "2023-06-15", "26TH",
      "M", "h1", "510", "DIV2", "B", "180"⟩ ⟨2023, 6, 3⟩ ⟨2023, 6, 1⟩
    ⟨"33", "10000", "2023-06-01", "X1", "BURGLARY", "2023-06-15", "26TH",
      "M", "h1", "510", "DIV2", "B", "180", true⟩ (by decide) (by decide)

/-- C8: with testing/sampling mode enabled, the result of the run is
the slice urls[len(urls) - 600:] — a contiguous suffix of the full (non-testing)
result consisting of its last 600 elements (all of them when fewer), a
pure post-processing step that preserves the generation order of the
retained elements. -/
theorem testing_truncation (listing : List String) (contents : String → List String)
    (fallback : String) (today : Date) (maxNum : Nat) (ids : List String)
    (h : spider_run listing contents fallback today maxNum false = some ids) :
    spider_run listing contents fallback today maxNum true =
      some (ids.drop (ids.length - 600)) ∧
    List.IsSuffix (ids.drop (ids.length - 600)) ids ∧
    (ids.drop (ids.length - 600)).length = min 600 ids.length := by
  refine ⟨?_, List.drop_suffix _ _, ?_⟩
  · unfold spider_run at h ⊢
    dsimp only at h ⊢
    cases hm : strptimeDashed (get_local_seed_file listing contents fallback).1 with
    | none =>
      rw [hm] at h
      exact Option.noConfusion h
    | some resume =>
      rw [hm] at h
      have h9 : generate_ids (get_local_seed_file listing contents fallback).2
          resume today maxNum = ids := by
        simpa using h
      subst h9
      simp
  · rw [List.length_drop]
    omega

/-- C8 witness: a one-candidate run is returned whole by the testing
truncation (fewer than 600 elements). -/
theorem testing_truncation_witness :
    spider_run [] (fun _ => []) "2023-01-01" ⟨2023, 1, 2⟩ 1 false =
      some ["2023-0101001"] ∧
    (spider_run [] (fun _ => []) "2023-01-01" ⟨2023, 1, 2⟩ 1 true =
      some (["2023-0101001"].drop (["2023-0101001"].length - 600)) ∧
    List.IsSuffix (["2023-0101001"].drop (["2023-0101001"].length - 600)) ["2023-0101001"] ∧
    (["2023-0101001"].drop (["2023-0101001"].length - 600)).length =
      min 600 ["2023-0101001"].length) :=
  ⟨by decide,
    testing_truncation [] (fun _ => []) "2023-01-01" ⟨2023, 1, 2⟩ 1
      ["2023-0101001"] (by decide)⟩

/-- C9: within one run (fixed reference date `self._today`), the page
storage filename (date, dash, booking id, suffix .html) is injective
in the booking identifier: distinct identifiers never collide on a
filename. -/
theorem page_filename_injective (today : Date) (id1 id2 : String) (h : id1 ≠ id2) :
    generate_page_filename today id1 ≠ generate_page_filename today id2 := by
  intro heq
  apply h
  unfold generate_page_filename at heq
  have hdata := congrArg String.data heq
  rw [String.data_append, String.data_append, String.data_append, String.data_append]
    at hdata
  have h1 := List.append_cancel_right hdata
  have h2 := List.append_cancel_left h1
  cases id1
  cases id2
  exact congrArg String.mk h2

/-- C9 witness: the distinct booking ids `2023-0602001` and `2023-0602002`
get distinct filenames on 2023-06-03. -/
theorem page_filename_injective_witness :
    "2023-0602001" ≠ "2023-0602002" ∧
    generate_page_filename ⟨2023, 6, 3⟩ "2023-0602001" ≠
      generate_page_filename ⟨2023, 6, 3⟩ "2023-0602002" :=
  ⟨by decide, page_filename_injective ⟨2023, 6, 3⟩ _ _ (by decide)⟩

/-- C10 counterexample: a configured target consisting of one slash
composes the key //raw/f.html; the strip removes only ONE character, so
the uploaded key /raw/f.html still begins with a slash — the claim fails
for such a configuration. -/
theorem s3_key_slash_counterexample :
    save_to_s3_key "/" "f.html" = "/raw/f.html" ∧
    ("/raw/f.html").data.head? = some '/' :=
  ⟨by decide, by decide⟩

/-- C10 amended: whenever the configured target prefix does not itself
begin with a slash, the key passed to the S3 upload never begins with a
slash; in particular with an empty target the leading slash of the
composed key is stripped and the page lands under raw/.  (A target that
begins with a slash defeats the single-character strip, as the
counterexample shows.) -/
theorem s3_key_no_leading_slash (target filename : String)
    (h : target.data.head? ≠ some '/') :
    (save_to_s3_key target filename).data.head? ≠ some '/' ∧
    save_to_s3_key "" filename = "raw/" ++ filename := by
  have hraw : ("/raw/" : String).data = ['/', 'r', 'a', 'w', '/'] := rfl
  constructor
  · unfold save_to_s3_key
    dsimp only
    cases ht : target.data with
    | nil =>
      have hkey : (target ++ "/raw/" ++ filename).data =
          '/' :: ('r' :: 'a' :: 'w' :: '/' :: filename.data) := by
        rw [String.data_append, String.data_append, ht, hraw]
        rfl
      simp [hkey]
    | cons c cs =>
      have hc : c ≠ '/' := by
        intro hcc
        exact h (by rw [ht, hcc]; rfl)
      have hkey : (target ++ "/raw/" ++ filename).data =
          c :: (cs ++ ['/', 'r', 'a', 'w', '/'] ++ filename.data) := by
        rw [String.data_append, String.data_append, ht, hraw]
        simp
      simp [hkey, hc]
  · unfold save_to_s3_key
    dsimp only
    have hkey : (("" : String) ++ "/raw/" ++ filename).data =
        '/' :: ('r' :: 'a' :: 'w' :: '/' :: filename.data) := by
      rw [String.data_append, String.data_append]
      rfl
    rw [hkey]
    have hcond : ('/' :: 'r' :: 'a' :: 'w' :: '/' :: filename.data).head? = some '/' := rfl
    rw [if_pos hcond]
    have hout : ("raw/" ++ filename).data = 'r' :: 'a' :: 'w' :: '/' :: filename.data := by
      rw [String.data_append]
      rfl
    rw [List.tail_cons, ← hout]

/-- C10 witness: a slash-free target `tenant` yields a key that does not
begin with a slash. -/
theorem s3_key_no_leading_slash_witness :
    ("tenant" : String).data.head? ≠ some '/' ∧
    ((save_to_s3_key "tenant" "f.html").data.head? ≠ some '/' ∧
      save_to_s3_key "" "f.html" = "raw/" ++ "f.html") :=
  ⟨by decide, s3_key_no_leading_slash "tenant" "f.html" (by decide)⟩

end Jailscraper
